import Mathlib

/-!
Verification of the reflection-style RPC registration-and-dispatch engine
in `pkg/rpc/server.go`, as a shallow embedding.

Modelling conventions:
* A Go `reflect.Type` is abstracted to the information the rpc package ever
  inspects: its `Kind` (only "is it a string" matters) and whether it
  implements the `error` interface.
* A Go method of a service instance (`reflect.Method`) is a `GoMethod`:
  its name, its `PkgPath` (empty iff exported), the argument types beyond
  the receiver (`NumIn() = 1 + argTypes.length`), the return types
  (`NumOut() = outTypes.length`), and its dynamic behaviour `call`.
* A dynamic invocation result (the `[]reflect.Value` slice) is a
  `CallResult`: `res` is the first returned value when the method has two
  results, `err` is the trailing error value (`none` models a nil error).
* Go maps are total functions into `Option`; a nil interface value of type
  `reflect.Type` is `Option GoType` being `none`.
* Calling a method on a nil Go interface value panics with a nil-pointer
  dereference; dispatch outcomes therefore live in `DispatchOut`, whose
  `nilDeref` constructor models such a runtime panic.
-/

namespace PBToolkit.RPC

/-- The part of `reflect.Kind` that dispatch inspects. -/
inductive Kind where
  | string
  | struct_
  | other
deriving DecidableEq

/-- Abstraction of a Go `reflect.Type`. -/
structure GoType where
  kind : Kind
  implementsError : Bool
deriving DecidableEq

/-- JSON-serialisable runtime values carried in request/response bodies. -/
inductive Val where
  | null
  | str (s : String)
  | num (n : Int)
  | obj (fields : List (String × Val))

/-- The `[]reflect.Value` slice produced by invoking a service method:
`res` is `results[0]` for a two-result method, `err` is the trailing
error value (`none` models a nil error). -/
structure CallResult where
  res : Val
  err : Option Val

/-- A method of a service instance, as seen through `reflect`. -/
structure GoMethod where
  name : String
  pkgPath : String
  argTypes : List GoType
  outTypes : List GoType
  call : Val → CallResult

/-- `RPCMethod` of server.go: the stored descriptor of a registered method. -/
structure RPCMethod where
  methodName : String
  type : Option GoType
  hasParams : Bool
  hasResult : Bool
  resultType : Option GoType
  call : Val → CallResult

/-- `RPCService` of server.go. A nil service instance is `none`. -/
structure RPCService where
  service : Option (List GoMethod)
  methods : String → Option RPCMethod
  serviceName : String

/-- `Server` of server.go. -/
structure Server where
  services : String → Option RPCService

/-- The per-method body of the registration loop of `RegisterService`
(server.go lines 189-243): the eligibility checks, each mirroring one
`continue`, and the construction of the stored `RPCMethod`. Returns
`none` when the method is skipped. -/
def buildMethodInfo (m : GoMethod) : Option RPCMethod :=
  if m.pkgPath ≠ "" then none
  else
    let numIn := 1 + m.argTypes.length
    if numIn ≠ 1 ∧ numIn ≠ 2 then none
    else
      let numOut := m.outTypes.length
      if numOut ≠ 1 ∧ numOut ≠ 2 then none
      else
        match m.outTypes.getLast? with
        | none => none
        | some lastOut =>
          if ¬ lastOut.implementsError then none
          else
            some { methodName := m.name
                   type := if numIn = 2 then m.argTypes.head? else none
                   hasParams := numIn == 2
                   hasResult := numOut == 2
                   resultType := if numOut = 2 then m.outTypes.head? else none
                   call := m.call }

/-- One iteration of the registration loop: `svc.methods[method.Name] = methodInfo`
when the method passed the checks, otherwise the map is left alone. -/
def updateFn (acc : String → Option RPCMethod) (m : GoMethod) :
    String → Option RPCMethod :=
  match buildMethodInfo m with
  | none => acc
  | some info => fun k => if k = m.name then some info else acc k

/-- The whole registration loop over the instance methods. -/
def buildMethods (ms : List GoMethod) : String → Option RPCMethod :=
  ms.foldl updateFn (fun _ => none)

/-- Construction of the `RPCService` value stored by `RegisterService`:
a nil instance yields an empty method map (the early return at line 182),
otherwise the reflection loop fills the map. -/
def introspect (name : String) (service : Option (List GoMethod)) : RPCService :=
  match service with
  | none => { service := none, methods := fun _ => none, serviceName := name }
  | some ms => { service := some ms, methods := buildMethods ms, serviceName := name }

/-- `RegisterService` (server.go lines 174-253): build the descriptor,
store it under `name`, and return the (always nil) error. -/
def registerService (s : Server) (name : String)
    (service : Option (List GoMethod)) : Server × Option String :=
  ({ services := fun m => if m = name then some (introspect name service) else s.services m },
   none)

/-- The request carrier. `BindBody` belongs to the surrounding framework;
its observable behaviour is a function from the target parameter type to
either a decode-error message or the decoded value. -/
structure RequestEvent where
  bindBody : GoType → Except String Val

/-- A wire response: HTTP status code and JSON body, as produced by `e.JSON`. -/
structure Response where
  status : Nat
  body : Val

/-- Outcome of a dispatch: a response written by `e.JSON`, or a runtime
panic from dereferencing a nil `reflect.Type`. -/
inductive DispatchOut where
  | resp (r : Response)
  | nilDeref

/-- The result-inspection block duplicated verbatim at the tail of both
`handleRPC` (lines 315-333) and `handleRPCGet` (lines 375-393): forward a
non-nil trailing error with status 500, otherwise return the result value
or the generic `{"status": "ok"}` marker. -/
def encodeResult (method : RPCMethod) (results : CallResult) : Response :=
  if method.hasResult then
    match results.err with
    | some errVal => { status := 500, body := errVal }
    | none => { status := 200, body := results.res }
  else
    match results.err with
    | some errVal => { status := 500, body := errVal }
    | none => { status := 200, body := Val.obj [("status", Val.str "ok")] }

/-- `handleRPC` (server.go lines 278-334). The `Bool` component records
whether the target method was invoked. `reflect.New` on a nil type would
panic, hence the `nilDeref` branch (unreachable from registration, where
`HasParams` implies a non-nil `Type`). -/
def handleRPC (s : Server) (e : RequestEvent) (serviceName methodName : String) :
    DispatchOut × Bool :=
  match s.services serviceName with
  | none =>
    (.resp { status := 404, body := .str ("Service '" ++ serviceName ++ "' not found") }, false)
  | some service =>
    match service.methods methodName with
    | none =>
      (.resp { status := 404,
               body := .str ("Method '" ++ methodName ++ "' not found in service '" ++ serviceName ++ "'") },
       false)
    | some method =>
      if method.hasParams then
        match method.type with
        | none => (.nilDeref, false)
        | some argType =>
          match e.bindBody argType with
          | .error msg =>
            (.resp { status := 400, body := .str ("Invalid parameters: " ++ msg) }, false)
          | .ok arg => (.resp (encodeResult method (method.call arg)), true)
      else
        (.resp (encodeResult method (method.call Val.null)), true)

/-- `handleRPCGet` (server.go lines 347-394). Line 364 reads `method.Type`
and line 365 calls `argType.Kind()` with no nil check: when the resolved
method is parameterless, `Type` is nil and the call panics (`nilDeref`). -/
def handleRPCGet (s : Server) (serviceName entityName id : String) :
    DispatchOut × Bool :=
  match s.services serviceName with
  | none =>
    (.resp { status := 404, body := .str ("Service '" ++ serviceName ++ "' not found") }, false)
  | some service =>
    let methodName := "Get" ++ entityName
    match service.methods methodName with
    | none =>
      (.resp { status := 404,
               body := .str ("Method '" ++ methodName ++ "' not found in service '" ++ serviceName ++ "'") },
       false)
    | some method =>
      match method.type with
      | none => (.nilDeref, false)
      | some argType =>
        if argType.kind ≠ Kind.string then
          (.resp { status := 400,
                   body := .str ("Method '" ++ methodName ++ "' does not accept a string parameter") },
           false)
        else
          (.resp (encodeResult method (method.call (Val.str id))), true)

/-- `strings.Split(s, "-")` on the character sequence of `s`: splitting on
the single-byte separator `-` at byte level coincides with splitting the
character list, because `-` never occurs inside a multi-byte UTF-8
character. Splitting the empty string yields one empty part, as in Go. -/
def splitOnHyphen : List Char → List (List Char)
  | [] => [[]]
  | c :: cs =>
    match splitOnHyphen cs with
    | [] => if c = '-' then [[], []] else [[c]]
    | p :: ps => if c = '-' then [] :: p :: ps else (c :: p) :: ps

/-- The loop body of `kebabToPascal`: a non-empty part becomes its first
character uppercased followed by the remainder lowercased; an empty part
is left alone. Character-level model of `strings.ToUpper(part[:1]) +
strings.ToLower(part[1:])` (identical on ASCII input). -/
def capitalizePart : List Char → List Char
  | [] => []
  | c :: cs => c.toUpper :: cs.map Char.toLower

/-- `kebabToPascal` (server.go lines 405-413): split on `-`, capitalize
each part, join with no separator. -/
def kebabToPascal (kebab : String) : String :=
  String.mk (((splitOnHyphen kebab.data).map capitalizePart).flatten)

/-- `handle` (server.go lines 119-125): slug conversion then dispatch. -/
def handle (s : Server) (e : RequestEvent) (serv slug : String) : DispatchOut × Bool :=
  handleRPC s e serv (kebabToPascal slug)

/-- `handleGet` (server.go lines 104-110): entity-slug conversion then dispatch. -/
def handleGet (s : Server) (serv entitySlug id : String) : DispatchOut × Bool :=
  handleRPCGet s serv (kebabToPascal entitySlug) id

/-- The eligibility rule as the specification states it (§4.1): exported,
at most one parameter beyond the receiver, one or two results, and the
trailing result implements the error interface. -/
def Eligible (m : GoMethod) : Prop :=
  m.pkgPath = "" ∧
  (m.argTypes.length = 0 ∨ m.argTypes.length = 1) ∧
  (m.outTypes.length = 1 ∨ m.outTypes.length = 2) ∧
  ∃ lastOut, m.outTypes.getLast? = some lastOut ∧ lastOut.implementsError = true

/-- The generic success marker `map[string]string{"status": "ok"}`. -/
def okMarker : Val := Val.obj [("status", Val.str "ok")]

/-- A server with no registered services (`NewServer`). -/
def emptyServer : Server := { services := fun _ => none }

/-! Concrete fixtures mirroring the shapes of the test service in
`server_test.go`: a string type, a struct type, the `error` type, and a
handful of methods covering the signature variants. -/

/-- A raw string parameter type. -/
def strType : GoType := { kind := Kind.string, implementsError := false }

/-- A struct request/response type. -/
def structType : GoType := { kind := Kind.struct_, implementsError := false }

/-- The `error` interface type. -/
def errType : GoType := { kind := Kind.other, implementsError := true }

/-- A request whose body does not decode into any parameter type. -/
def reqW : RequestEvent := { bindBody := fun _ => Except.error "EOF" }

/-- Behaviour of `GetUser`: echo the id, nil error. -/
def getUserCall : Val → CallResult :=
  fun v => { res := Val.obj [("id", v)], err := none }

/-- `GetUser(id string) (TestResponse, error)`. -/
def getUserMethod : GoMethod :=
  { name := "GetUser", pkgPath := "", argTypes := [strType],
    outTypes := [structType, errType], call := getUserCall }

/-- The descriptor `RegisterService` stores for `getUserMethod`. -/
def getUserInfo : RPCMethod :=
  { methodName := "GetUser", type := some strType, hasParams := true,
    hasResult := true, resultType := some structType, call := getUserCall }

/-- Behaviour of `GetStats`: a constant struct, nil error. -/
def statsCall : Val → CallResult :=
  fun _ => { res := Val.obj [("total_users", Val.num 100)], err := none }

/-- `GetStats() (StatsResponse, error)`: parameterless, two results. -/
def getStatsMethod : GoMethod :=
  { name := "GetStats", pkgPath := "", argTypes := [],
    outTypes := [structType, errType], call := statsCall }

/-- `GetThing(req TestRequest) (TestResponse, error)`: struct parameter. -/
def getThingMethod : GoMethod :=
  { name := "GetThing", pkgPath := "", argTypes := [structType],
    outTypes := [structType, errType], call := statsCall }

/-- A server exposing `GetStats` and `GetThing` under service `test`. -/
def serverC2 : Server :=
  (registerService emptyServer "test" (some [getStatsMethod, getThingMethod])).1

/-- A server with a (nil) service registered under `a`. -/
def serverA : Server := (registerService emptyServer "a" none).1

/-- A server with a (nil) service registered under `t`. -/
def serverT : Server := (registerService emptyServer "t" none).1

/-- The error value reported by the failing fixture methods. -/
def boomVal : Val := Val.str "boom"

/-- Behaviour that reports a failure plus a (to-be-discarded) result. -/
def failCall : Val → CallResult :=
  fun _ => { res := Val.str "junk", err := some boomVal }

/-- `Fail() (TestResponse, error)`: parameterless, always fails. -/
def failMethod : GoMethod :=
  { name := "Fail", pkgPath := "", argTypes := [],
    outTypes := [structType, errType], call := failCall }

/-- `GetFail(id string) error`: string parameter, failure-only, fails. -/
def getFailMethod : GoMethod :=
  { name := "GetFail", pkgPath := "", argTypes := [strType],
    outTypes := [errType], call := failCall }

/-- The instance holding the two failing methods. -/
def instW5 : List GoMethod := [failMethod, getFailMethod]

/-- A server exposing `instW5` under service `w5`. -/
def serverW5 : Server := (registerService emptyServer "w5" (some instW5)).1

/-- The descriptor stored for service `w5`. -/
def svcW5 : RPCService := introspect "w5" (some instW5)

/-- The stored descriptor of `failMethod`. -/
def failInfo : RPCMethod :=
  { methodName := "Fail", type := none, hasParams := false,
    hasResult := true, resultType := some structType, call := failCall }

/-- The stored descriptor of `getFailMethod`. -/
def getFailInfo : RPCMethod :=
  { methodName := "GetFail", type := some strType, hasParams := true,
    hasResult := false, resultType := none, call := failCall }

/-- Behaviour that succeeds with a nil error. -/
def okCall : Val → CallResult := fun _ => { res := Val.null, err := none }

/-- `RefreshCache() error`: parameterless, failure-only, succeeds. -/
def refreshMethod : GoMethod :=
  { name := "RefreshCache", pkgPath := "", argTypes := [],
    outTypes := [errType], call := okCall }

/-- `GetPing(id string) error`: string parameter, failure-only, succeeds. -/
def getPingMethod : GoMethod :=
  { name := "GetPing", pkgPath := "", argTypes := [strType],
    outTypes := [errType], call := okCall }

/-- The instance holding the two succeeding failure-only methods. -/
def instW8 : List GoMethod := [refreshMethod, getPingMethod]

/-- A server exposing `instW8` under service `w8`. -/
def serverW8 : Server := (registerService emptyServer "w8" (some instW8)).1

/-- The descriptor stored for service `w8`. -/
def svcW8 : RPCService := introspect "w8" (some instW8)

/-- The stored descriptor of `refreshMethod`. -/
def refreshInfo : RPCMethod :=
  { methodName := "RefreshCache", type := none, hasParams := false,
    hasResult := false, resultType := none, call := okCall }

/-- The stored descriptor of `getPingMethod`. -/
def getPingInfo : RPCMethod :=
  { methodName := "GetPing", type := some strType, hasParams := true,
    hasResult := false, resultType := none, call := okCall }

/-- The descriptor stored for a service exposing only `getUserMethod`. -/
def svcW9 : RPCService := introspect "test" (some [getUserMethod])

/-- The four `continue` checks of the registration loop succeed exactly on
the methods that the eligibility rule of the specification accepts. -/
theorem buildMethodInfo_isSome_iff (m : GoMethod) :
    (buildMethodInfo m).isSome = true ↔ Eligible m := by
  constructor
  · intro h
    simp only [buildMethodInfo] at h
    split at h
    · simp at h
    · next hp =>
      split at h
      · simp at h
      · next ha =>
        split at h
        · simp at h
        · next ho =>
          split at h
          · simp at h
          · next lastOut hL =>
            split at h
            · simp at h
            · next he =>
              refine ⟨by simpa using hp, by omega, by omega, lastOut, hL, ?_⟩
              simpa using he
  · rintro ⟨hp, ha, ho, lastOut, hL, he⟩
    simp only [buildMethodInfo]
    split
    · next h => exact absurd hp (by simpa using h)
    · split
      · next h => omega
      · split
        · next h => omega
        · split
          · next hL2 =>
            rw [hL2] at hL
            cases hL
          · next lastOut2 hL2 =>
            rw [hL2] at hL
            injection hL with hL
            subst hL
            rw [if_neg (by simp [he])]
            rfl

/-- Lookup in the method map built by the registration loop, generalised
over the accumulator: a name is bound exactly when it was bound before the
loop or some method of the list bearing that name passes the checks. -/
theorem foldl_updateFn_isSome (ms : List GoMethod)
    (acc : String → Option RPCMethod) (k : String) :
    ((ms.foldl updateFn acc) k).isSome = true ↔
      (acc k).isSome = true ∨ ∃ m, m ∈ ms ∧ m.name = k ∧ Eligible m := by
  induction ms generalizing acc with
  | nil => simp
  | cons hd t ih =>
    rw [List.foldl_cons, ih]
    rcases hb : buildMethodInfo hd with _ | info
    · have hne : ¬ Eligible hd := by
        rw [← buildMethodInfo_isSome_iff, hb]
        simp
      simp only [updateFn, hb]
      constructor
      · rintro (h | ⟨m, hm, rfl, he⟩)
        · exact Or.inl h
        · exact Or.inr ⟨m, List.mem_cons_of_mem _ hm, rfl, he⟩
      · rintro (h | ⟨m, hm, rfl, he⟩)
        · exact Or.inl h
        · rcases List.mem_cons.mp hm with rfl | hm
          · exact absurd he hne
          · exact Or.inr ⟨m, hm, rfl, he⟩
    · have hel : Eligible hd := by
        rw [← buildMethodInfo_isSome_iff, hb]
        rfl
      simp only [updateFn, hb]
      by_cases hk : k = hd.name
      · subst hk
        simp only [if_pos rfl]
        constructor
        · intro _
          exact Or.inr ⟨hd, List.mem_cons_self _ _, rfl, hel⟩
        · intro _
          exact Or.inl rfl
      · simp only [if_neg hk]
        constructor
        · rintro (h | ⟨m, hm, rfl, he⟩)
          · exact Or.inl h
          · exact Or.inr ⟨m, List.mem_cons_of_mem _ hm, rfl, he⟩
        · rintro (h | ⟨m, hm, rfl, he⟩)
          · exact Or.inl h
          · rcases List.mem_cons.mp hm with rfl | hm
            · exact absurd rfl hk
            · exact Or.inr ⟨m, hm, rfl, he⟩

/-- Provenance of a stored descriptor: it was in the accumulator already,
or it is the `buildMethodInfo` image of a method of the list with the
matching name. -/
theorem foldl_updateFn_lookup (ms : List GoMethod)
    (acc : String → Option RPCMethod) (k : String) (info : RPCMethod)
    (h : (ms.foldl updateFn acc) k = some info) :
    acc k = some info ∨
      ∃ m, m ∈ ms ∧ m.name = k ∧ buildMethodInfo m = some info := by
  induction ms generalizing acc with
  | nil => exact Or.inl h
  | cons hd t ih =>
    rw [List.foldl_cons] at h
    rcases ih _ h with h1 | ⟨m, hm, rfl, hbm⟩
    · rcases hb : buildMethodInfo hd with _ | info2
      · simp only [updateFn, hb] at h1
        exact Or.inl h1
      · simp only [updateFn, hb] at h1
        by_cases hk : k = hd.name
        · subst hk
          rw [if_pos rfl] at h1
          exact Or.inr ⟨hd, List.mem_cons_self _ _, rfl, hb.trans h1⟩
        · rw [if_neg hk] at h1
          exact Or.inl h1
    · exact Or.inr ⟨m, List.mem_cons_of_mem _ hm, rfl, hbm⟩

/-- Field-level facts about a descriptor produced by the registration
loop checks. -/
theorem buildMethodInfo_fields (m : GoMethod) (info : RPCMethod)
    (h : buildMethodInfo m = some info) :
    info.methodName = m.name ∧
    (info.hasParams = true ↔ info.type.isSome = true) ∧
    (info.hasResult = true ↔ info.resultType.isSome = true) ∧
    (info.hasParams = true → info.type = m.argTypes.head?) ∧
    (info.hasResult = true → info.resultType = m.outTypes.head?) := by
  simp only [buildMethodInfo] at h
  split at h
  · exact absurd h (by simp)
  · next hp =>
    split at h
    · exact absurd h (by simp)
    · next ha =>
      split at h
      · exact absurd h (by simp)
      · next ho =>
        split at h
        · exact absurd h (by simp)
        · next lastOut hL =>
          split at h
          · exact absurd h (by simp)
          · next he =>
            injection h with h
            subst h
            refine ⟨rfl, ?_, ?_, ?_, ?_⟩
            · by_cases h2 : 1 + m.argTypes.length = 2
              · rcases hA : m.argTypes with _ | ⟨a, t⟩
                · rw [hA] at h2
                  simp at h2
                · simp [h2, hA]
              · have h3 : (1 + m.argTypes.length == 2) = false := by
                  simp [h2]
                simp [h2, h3]
            · by_cases h2 : m.outTypes.length = 2
              · rcases hO : m.outTypes with _ | ⟨a, t⟩
                · rw [hO] at h2
                  simp at h2
                · simp [h2, hO]
              · have h3 : (m.outTypes.length == 2) = false := by
                  simp [h2]
                simp [h2, h3]
            · intro hP
              by_cases h2 : 1 + m.argTypes.length = 2
              · simp [h2]
              · simp [h2] at hP
            · intro hP
              by_cases h2 : m.outTypes.length = 2
              · simp [h2]
              · simp [h2] at hP

/-- C3: `kebabToPascal` is a total deterministic function on strings that
capitalizes the first character of each hyphen-delimited token, lowercases
the remainder and concatenates the tokens; in particular it maps `""` to
`""`, `"single"` to `"Single"`, `"get-user-profile"` to
`"GetUserProfile"`, `"UPPER-CASE"` to `"UpperCase"` and `"mixed-Case"` to
`"MixedCase"`. -/
theorem kebabToPascal_spec :
    (∀ s : String, (kebabToPascal s).data =
      ((splitOnHyphen s.data).map capitalizePart).flatten) ∧
    kebabToPascal "" = "" ∧
    kebabToPascal "single" = "Single" ∧
    kebabToPascal "get-user-profile" = "GetUserProfile" ∧
    kebabToPascal "UPPER-CASE" = "UpperCase" ∧
    kebabToPascal "mixed-Case" = "MixedCase" :=
  ⟨fun _ => rfl, by decide, by decide, by decide, by decide, by decide⟩

/-- C1: for a non-nil instance, the method map stored by `RegisterService`
binds a name exactly when some method of the instance with that name is
exported, takes zero or one parameter beyond the receiver, and returns one
or two values whose trailing value implements the error interface; all
other methods are absent, and registration returns a nil error. -/
theorem registerService_method_set (s : Server) (name k : String)
    (ms : List GoMethod) :
    (registerService s name (some ms)).2 = none ∧
    ∃ svc, ((registerService s name (some ms)).1).services name = some svc ∧
      (((svc.methods k).isSome = true) ↔
        ∃ m, m ∈ ms ∧ m.name = k ∧ Eligible m) := by
  refine ⟨rfl, introspect name (some ms), by simp [registerService], ?_⟩
  show ((buildMethods ms k).isSome = true) ↔ _
  rw [buildMethods, foldl_updateFn_isSome]
  simp

/-- C7: `RegisterService` never fails: it returns a nil error for every
name and instance, and registering a nil instance leaves the name mapped
to a descriptor with a nil instance handle and an empty method map. -/
theorem registerService_never_fails (s : Server) (name : String)
    (inst : Option (List GoMethod)) :
    (registerService s name inst).2 = none ∧
    ∃ svc, ((registerService s name none).1).services name = some svc ∧
      svc.service = none ∧ ∀ k, svc.methods k = none := by
  exact ⟨rfl, introspect name none, by simp [registerService],
    rfl, fun k => rfl⟩

/-- C10: `RegisterService` for a name `n` changes only the registry entry
for `n`: every other name keeps exactly the descriptor it was mapped to
before the call. -/
theorem registerService_frame (s : Server) (n m : String)
    (inst : Option (List GoMethod)) (h : m ≠ n) :
    ((registerService s n inst).1).services m = s.services m := by
  simp [registerService, h]

/-- Witness for C10: registering a nil service under `b` leaves the
existing entry under `a` untouched. -/
theorem registerService_frame_witness :
    ("a" : String) ≠ "b" ∧
    ((registerService serverA "b" none).1).services "a" = serverA.services "a" :=
  ⟨by decide, registerService_frame serverA "b" "a" none (by decide)⟩

/-- C6: re-registering a service name replaces its whole descriptor in one
step: registering `a` then `b` under `n` leaves the server equal to
registering `b` alone, and the registry afterwards maps `n` to the
descriptor built solely from the new instance. -/
theorem registerService_reregister (s : Server) (n : String)
    (a b : Option (List GoMethod)) :
    registerService (registerService s n a).1 n b = registerService s n b ∧
    ((registerService (registerService s n a).1 n b).1).services n =
      some (introspect n b) := by
  constructor
  · simp only [registerService]
    refine congrArg (fun f => (Server.mk f, (none : Option String))) ?_
    funext m
    by_cases h : m = n <;> simp [h]
  · simp [registerService]

/-- C9: every descriptor stored by `RegisterService` is internally
consistent: `HasParams` holds iff `Type` is non-nil, `HasResult` holds iff
`ResultType` is non-nil, and the binding key is the declared name (with
exact casing) of a method of the instance whose first argument type and
first result type the descriptor records. -/
theorem registerService_descriptor_consistent (s : Server) (name k : String)
    (ms : List GoMethod) (svc : RPCService) (info : RPCMethod)
    (hsvc : ((registerService s name (some ms)).1).services name = some svc)
    (hinfo : svc.methods k = some info) :
    (info.hasParams = true ↔ info.type.isSome = true) ∧
    (info.hasResult = true ↔ info.resultType.isSome = true) ∧
    ∃ m, m ∈ ms ∧ m.name = k ∧ info.methodName = m.name ∧
      (info.hasParams = true → info.type = m.argTypes.head?) ∧
      (info.hasResult = true → info.resultType = m.outTypes.head?) := by
  have hsvc2 : svc = introspect name (some ms) := by
    simp [registerService] at hsvc
    exact hsvc.symm
  subst hsvc2
  have h1 : buildMethods ms k = some info := hinfo
  rcases foldl_updateFn_lookup ms _ k info h1 with h2 | ⟨m, hm, rfl, hbm⟩
  · simp at h2
  · obtain ⟨hn, hp, hr, ht, hrt⟩ := buildMethodInfo_fields m info hbm
    exact ⟨hp, hr, m, hm, rfl, hn, ht, hrt⟩

/-- Witness for C9: the descriptor stored for `GetUser(id string)
(TestResponse, error)` under key `GetUser`. -/
theorem registerService_descriptor_consistent_witness :
    (getUserInfo.hasParams = true ↔ getUserInfo.type.isSome = true) ∧
    (getUserInfo.hasResult = true ↔ getUserInfo.resultType.isSome = true) ∧
    ∃ m, m ∈ [getUserMethod] ∧ m.name = "GetUser" ∧
      getUserInfo.methodName = m.name ∧
      (getUserInfo.hasParams = true → getUserInfo.type = m.argTypes.head?) ∧
      (getUserInfo.hasResult = true → getUserInfo.resultType = m.outTypes.head?) :=
  registerService_descriptor_consistent emptyServer "test" "GetUser"
    [getUserMethod] svcW9 getUserInfo rfl rfl

/-- C4: invoke-by-name against an unregistered service name yields the
NotFound service response, and against a registered service with an
unknown (converted) method identifier yields the NotFound method
response; in both cases the target method is not invoked and the result
does not depend on the request body. -/
theorem handleRPC_not_found (s : Server) (e : RequestEvent) (sn mn : String) :
    (s.services sn = none →
      handleRPC s e sn mn =
        (.resp { status := 404, body := .str ("Service '" ++ sn ++ "' not found") },
         false)) ∧
    (∀ svc, s.services sn = some svc → svc.methods mn = none →
      handleRPC s e sn mn =
        (.resp { status := 404,
                 body := .str ("Method '" ++ mn ++ "' not found in service '" ++ sn ++ "'") },
         false)) := by
  constructor
  · intro h
    simp [handleRPC, h]
  · intro svc hs hm
    simp [handleRPC, hs, hm]

/-- Witness for C4: an empty registry yields the service NotFound
response; a registered nil service with no methods yields the method
NotFound response. -/
theorem handleRPC_not_found_witness :
    handleRPC emptyServer reqW "user" "CreateUser" =
      (.resp { status := 404, body := .str ("Service '" ++ "user" ++ "' not found") },
       false) ∧
    handleRPC serverT reqW "t" "CreateUser" =
      (.resp { status := 404,
               body := .str ("Method '" ++ "CreateUser" ++ "' not found in service '" ++ "t" ++ "'") },
       false) :=
  ⟨(handleRPC_not_found emptyServer reqW "user" "CreateUser").1 rfl,
   (handleRPC_not_found serverT reqW "t" "CreateUser").2 (introspect "t" none) rfl rfl⟩

/-- C5: whenever an invocation's trailing failure value is non-nil, both
dispatch paths respond with status 500 and forward the failure value
itself as the body, discarding any declared result value. -/
theorem dispatch_method_failure (s : Server) (e : RequestEvent)
    (sn mn en id : String) (svc : RPCService) (method : RPCMethod)
    (res errVal : Val) (hs : s.services sn = some svc) :
    (svc.methods mn = some method →
      ((method.hasParams = false ∧ method.call Val.null = ⟨res, some errVal⟩) ∨
       (∃ t arg, method.type = some t ∧ method.hasParams = true ∧
         e.bindBody t = Except.ok arg ∧ method.call arg = ⟨res, some errVal⟩)) →
      handleRPC s e sn mn = (.resp { status := 500, body := errVal }, true)) ∧
    (svc.methods ("Get" ++ en) = some method →
      (∃ t, method.type = some t ∧ t.kind = Kind.string) →
      method.call (Val.str id) = ⟨res, some errVal⟩ →
      handleRPCGet s sn en id = (.resp { status := 500, body := errVal }, true)) := by
  constructor
  · intro hm hcase
    rcases hcase with ⟨hnp, hcall⟩ | ⟨t, arg, htype, hp, hbind, hcall⟩
    · simp only [handleRPC, hs, hm, hnp, Bool.false_eq_true, if_false, hcall]
      cases hhr : method.hasResult <;> simp [encodeResult, hhr]
    · simp only [handleRPC, hs, hm, hp, if_true, htype, hbind, hcall]
      cases hhr : method.hasResult <;> simp [encodeResult, hhr]
  · rintro hm ⟨t, htype, hkind⟩ hcall
    simp only [handleRPCGet, hs, hm, htype, hkind, hcall]
    simp only [ne_eq, not_true_eq_false, if_false]
    cases hhr : method.hasResult <;> simp [encodeResult, hhr]

/-- Witness for C5: the always-failing fixtures produce status 500 with
the failure value `boomVal` as body on both paths, with the declared
result of `Fail` discarded. -/
theorem dispatch_method_failure_witness :
    handleRPC serverW5 reqW "w5" "Fail" =
      (.resp { status := 500, body := boomVal }, true) ∧
    handleRPCGet serverW5 "w5" "Fail" "9" =
      (.resp { status := 500, body := boomVal }, true) :=
  ⟨(dispatch_method_failure serverW5 reqW "w5" "Fail" "x" "9" svcW5 failInfo
      (Val.str "junk") boomVal rfl).1 rfl (Or.inl ⟨rfl, rfl⟩),
   (dispatch_method_failure serverW5 reqW "w5" "x" "Fail" "9" svcW5 getFailInfo
      (Val.str "junk") boomVal rfl).2 rfl ⟨strType, rfl, rfl⟩ rfl⟩

/-- C8: a registered failure-only method (one return value) that reports a
nil error yields status 200 with the non-empty generic success marker
`{"status": "ok"}` as body, on both the invoke-by-name and the fetch-by-id
paths. -/
theorem dispatch_success_marker (s : Server) (e : RequestEvent)
    (sn mn en id : String) (svc : RPCService) (method : RPCMethod)
    (res : Val) (hs : s.services sn = some svc)
    (hr : method.hasResult = false) :
    (svc.methods mn = some method →
      ((method.hasParams = false ∧ method.call Val.null = ⟨res, none⟩) ∨
       (∃ t arg, method.type = some t ∧ method.hasParams = true ∧
         e.bindBody t = Except.ok arg ∧ method.call arg = ⟨res, none⟩)) →
      handleRPC s e sn mn = (.resp { status := 200, body := okMarker }, true)) ∧
    (svc.methods ("Get" ++ en) = some method →
      (∃ t, method.type = some t ∧ t.kind = Kind.string) →
      method.call (Val.str id) = ⟨res, none⟩ →
      handleRPCGet s sn en id = (.resp { status := 200, body := okMarker }, true)) ∧
    okMarker = Val.obj [("status", Val.str "ok")] ∧
    okMarker ≠ Val.null ∧ okMarker ≠ Val.obj [] := by
  refine ⟨?_, ?_, rfl, fun h => Val.noConfusion h, fun h => ?_⟩
  · intro hm hcase
    rcases hcase with ⟨hnp, hcall⟩ | ⟨t, arg, htype, hp, hbind, hcall⟩
    · simp only [handleRPC, hs, hm, hnp, Bool.false_eq_true, if_false, hcall]
      simp [encodeResult, hr, okMarker]
    · simp only [handleRPC, hs, hm, hp, if_true, htype, hbind, hcall]
      simp [encodeResult, hr, okMarker]
  · rintro hm ⟨t, htype, hkind⟩ hcall
    simp only [handleRPCGet, hs, hm, htype, hkind, hcall]
    simp only [ne_eq, not_true_eq_false, if_false]
    simp [encodeResult, hr, okMarker]
  · injection h with h
    cases h

/-- Witness for C8: `RefreshCache` (POST) and `GetPing` (GET) both return
status 200 with the `{"status": "ok"}` marker. -/
theorem dispatch_success_marker_witness :
    handleRPC serverW8 reqW "w8" "RefreshCache" =
      (.resp { status := 200, body := okMarker }, true) ∧
    handleRPCGet serverW8 "w8" "Ping" "7" =
      (.resp { status := 200, body := okMarker }, true) :=
  ⟨(dispatch_success_marker serverW8 reqW "w8" "RefreshCache" "x" "7" svcW8
      refreshInfo Val.null rfl rfl).1 rfl (Or.inl ⟨rfl, rfl⟩),
   (dispatch_success_marker serverW8 reqW "w8" "x" "Ping" "7" svcW8
      getPingInfo Val.null rfl rfl).2.1 rfl ⟨strType, rfl, rfl⟩ rfl⟩

/-- C2: the fetch-by-id path rejects a single non-string parameter with
the BadRequest signature-mismatch response without invoking the method,
but for a registered parameterless `Get` method (here `GetStats`) it does
NOT return BadRequest: line 365 calls `Kind()` on the nil `Type` of the
descriptor and the handler panics with a nil-pointer dereference. -/
theorem handleRPCGet_paramless_nil_deref :
    handleRPCGet serverC2 "test" "Stats" "123" = (DispatchOut.nilDeref, false) ∧
    handleRPCGet serverC2 "test" "Thing" "123" =
      (.resp { status := 400,
               body := .str ("Method '" ++ "GetThing" ++ "' does not accept a string parameter") },
       false) :=
  ⟨rfl, rfl⟩

end PBToolkit.RPC
